import Mathlib

/-!
Shallow embedding of `src/github_tracker.py` (class `GitHubContributionTracker`).

Modelling conventions:
* Timestamps are seconds as `Int`; `datetime.now()` is a parameter `nowTs`;
  `timedelta(days=days)` is `86400 * days`; `datetime.date()` is floor
  division by 86400.
* The HTTP environment is a stream (list) of responses, one consumed per
  `session.get`; each response carries the `datetime.now().timestamp()`
  observed during its rate-limit check.  A transport failure or non-2xx
  status (which `raise_for_status` turns into `requests.RequestException`)
  is the single constructor `netError`.
* Side effects (requests issued, `time.sleep`, matplotlib calls, files
  written) are returned as ghost data: action traces, effect lists, and
  lists of file lines.
* Python's dynamically typed `days` argument is a `PyVal`; as in Python,
  `bool` is an instance of `int`.
* `pandas` column operations are modelled on the projected lists:
  `value_counts().to_dict()` maps each distinct value to its count
  (dict key order is not modelled), `nunique` counts distinct values.
-/

namespace GitInsight

/-- One element of the JSON list returned by the events endpoint:
`created_at` (parsed timestamp, seconds), `type`, and `repo.name`. -/
structure Event where
  created_at : Int
  type : String
  repo : String
deriving DecidableEq

/-- A row appended to `contributions`: `event_date.date()`, `event['type']`,
`event['repo']['name']` (src/github_tracker.py lines 112-116). -/
structure Record where
  date : Int
  type : String
  repo : String
deriving DecidableEq

/-- `datetime.date()` of a timestamp: its calendar day. -/
def dateOf (ts : Int) : Int := ts / 86400

/-- The dict appended for an in-window event (lines 112-116). -/
def mkRecord (ev : Event) : Record :=
  ⟨dateOf ev.created_at, ev.type, ev.repo⟩

/-- Outcome of the inner `for event in events` loop (lines 107-116):
either the page was fully processed (fall through to `page += 1`) or the
`return pd.DataFrame(contributions)` early exit fired. -/
inductive PageOutcome where
  | finished (acc : List Record)
  | earlyReturn (acc : List Record)
deriving DecidableEq

/-- The contribution table carried by either outcome. -/
def PageOutcome.acc : PageOutcome → List Record
  | .finished a => a
  | .earlyReturn a => a

/-- The inner event loop of `fetch_contributions` (lines 107-116): stop and
return the table built so far when `event_date < start_date`; append when
`event_date <= end_date`; otherwise skip. -/
def processEvents (start_date end_date : Int) (acc : List Record) :
    List Event → PageOutcome
  | [] => .finished acc
  | ev :: rest =>
    if ev.created_at < start_date then
      .earlyReturn acc
    else if ev.created_at ≤ end_date then
      processEvents start_date end_date (acc ++ [mkRecord ev]) rest
    else
      processEvents start_date end_date acc rest

/-- One HTTP response: a transport failure / non-2xx status, or a 2xx
response with its `X-RateLimit-Remaining` and `X-RateLimit-Reset` header
values (default 0 when absent, line 94/96) and its JSON event list. -/
inductive PageResponse where
  | netError
  | ok (remaining reset : Int) (events : List Event)
deriving DecidableEq

/-- Ghost trace entries: an HTTP GET for a page number, or a `time.sleep`
of the given number of seconds. -/
inductive Action where
  | request (page : Nat)
  | sleep (duration : Int)
deriving DecidableEq

/-- Exceptions raised by `fetch_contributions`: `ValueError` (line 76) or a
propagated `requests.RequestException` (line 122). -/
inductive FetchErr where
  | valueError
  | networkError
deriving DecidableEq

/-- The `while True` pagination loop of `fetch_contributions` (lines
85-124), one response consumed per request.  Returns the result, the
ghost action trace, and the unconsumed remainder of the response stream
(exhaustion of the stream ends the run with the table built so far).
When `remaining == 0` and `reset - now > 0` the loop sleeps
`wait_time + 1` seconds and retries the same page (lines 95-101); an
empty event list breaks the loop (lines 104-105); an early return inside
the page returns the table (line 110); otherwise `page += 1`. -/
def fetchLoop (start_date end_date : Int) :
    List (Int × PageResponse) → Nat → List Record → List Action →
    Except FetchErr (List Record) × List Action × List (Int × PageResponse)
  | [], _, acc, acts => (.ok acc, acts, [])
  | (now, resp) :: rest, page, acc, acts =>
    match resp with
    | .netError => (.error .networkError, acts ++ [.request page], rest)
    | .ok remaining reset events =>
      if remaining = 0 ∧ reset - now > 0 then
        fetchLoop start_date end_date rest page acc
          (acts ++ [.request page, .sleep (reset - now + 1)])
      else if events = [] then
        (.ok acc, acts ++ [.request page], rest)
      else
        match processEvents start_date end_date acc events with
        | .earlyReturn acc2 => (.ok acc2, acts ++ [.request page], rest)
        | .finished acc2 =>
          fetchLoop start_date end_date rest (page + 1) acc2
            (acts ++ [.request page])

/-- A Python value passed as the `days` argument.  As in Python,
`isinstance(b, int)` holds for booleans. -/
inductive PyVal where
  | int (n : Int)
  | bool (b : Bool)
  | float (q : ℚ)
  | str (s : String)
deriving DecidableEq

/-- `isinstance(days, int)` (line 75). -/
def PyVal.isinstance_int : PyVal → Bool
  | .int _ => true
  | .bool _ => true
  | _ => false

/-- The integer value of an int-instance (`True == 1`, `False == 0`);
irrelevant for other variants, where Python short-circuits before
comparing. -/
def PyVal.toInt : PyVal → Int
  | .int n => n
  | .bool b => if b then 1 else 0
  | _ => 0

/-- `fetch_contributions(days)` (lines 58-124): validate `days`, compute
the window `[nowTs - 86400*days, nowTs]`, then run the pagination loop
against the response stream starting at page 1. -/
def fetch_contributions (days : PyVal) (nowTs : Int)
    (responses : List (Int × PageResponse)) :
    Except FetchErr (List Record) × List Action × List (Int × PageResponse) :=
  if days.isinstance_int = false ∨ days.toInt ≤ 0 then
    (.error .valueError, [], responses)
  else
    fetchLoop (nowTs - 86400 * days.toInt) nowTs responses 1 [] []

/-- The analysis dict returned by `analyze_contributions` (lines 126-155). -/
structure Summary where
  total_contributions : Nat
  contribution_types : List (String × Nat)
  active_repositories : Nat
  daily_average : ℚ
deriving DecidableEq

/-- `series.value_counts().to_dict()`: each distinct value paired with its
number of occurrences. -/
def value_counts {α : Type} [DecidableEq α] (l : List α) : List (α × Nat) :=
  l.dedup.map (fun t => (t, l.count t))

/-- `series.nunique()`: the number of distinct values. -/
def nunique {α : Type} [DecidableEq α] (l : List α) : Nat :=
  l.dedup.length

/-- `analyze_contributions(df)` (lines 126-155): a zeroed summary for an
empty table (lines 140-147), otherwise length, per-type counts, distinct
repo count, and `len(df) / df['date'].nunique()` (lines 149-154). -/
def analyze_contributions (df : List Record) : Summary :=
  if df.isEmpty then
    ⟨0, [], 0, 0⟩
  else
    ⟨df.length,
     value_counts (df.map Record.type),
     nunique (df.map Record.repo),
     (df.length : ℚ) / (nunique (df.map Record.date) : ℚ)⟩

/-- Ghost effects of `visualize_contributions`: the logged notice, the
chart drawing (`plt.figure` through `plt.tight_layout`), `plt.savefig`,
or `plt.show`. -/
inductive VizEffect where
  | logWarning (msg : String)
  | drawChart
  | saveFig (path : String)
  | show
deriving DecidableEq

/-- `visualize_contributions(df, save_path)` (lines 157-198): on an empty
table log a notice and return (lines 174-176); otherwise draw the daily
bar chart, then save to `save_path` if given, else show interactively. -/
def visualize_contributions (df : List Record) (save_path : Option String) :
    List VizEffect :=
  if df.isEmpty then
    [.logWarning "No data to visualize"]
  else
    [.drawChart] ++
      (match save_path with
       | some p => [.saveFig p]
       | none => [.show])

/-- One line of the CSV body for a record. -/
def csvRow (r : Record) : String :=
  toString r.date ++ "," ++ r.type ++ "," ++ r.repo

/-- `df.to_csv(path, index=False)` (line 216): a header line followed by
one line per record. -/
def to_csv (df : List Record) : List String :=
  "date,type,repo" :: df.map csvRow

/-- `analysis.items()`: the four key/value pairs of the summary dict, in
insertion order (both branches of `analyze_contributions` build exactly
these four keys). -/
def summaryItems (s : Summary) : List (String × String) :=
  [("total_contributions", toString s.total_contributions),
   ("contribution_types", toString s.contribution_types),
   ("active_repositories", toString s.active_repositories),
   ("daily_average", toString s.daily_average)]

/-- The analysis file body written at lines 221-223: `f'{key}: {value}'`
per item. -/
def summaryLines (s : Summary) : List String :=
  (summaryItems s).map (fun kv => kv.1 ++ ": " ++ kv.2)

/-- `save_data(df, analysis)` (lines 200-227): the lines of the CSV file
and of the analysis text file. -/
def save_data (df : List Record) (analysis : Summary) :
    List String × List String :=
  (to_csv df, summaryLines analysis)

/-- The C2 scenario table: three events on the same day in the same
repository, two `PushEvent` and one `WatchEvent`. -/
def scenario3 : List Record :=
  [⟨19000, "PushEvent", "user/repo"⟩,
   ⟨19000, "PushEvent", "user/repo"⟩,
   ⟨19000, "WatchEvent", "user/repo"⟩]

/-- Every record in the outcome of the inner event loop either was already
in the accumulator or comes from an input event whose timestamp lies in
the inclusive window `[s, e]`. -/
theorem processEvents_acc_mem (s e : Int) :
    ∀ (events : List Event) (acc : List Record) (r : Record),
      r ∈ (processEvents s e acc events).acc →
      r ∈ acc ∨ ∃ ev ∈ events,
        s ≤ ev.created_at ∧ ev.created_at ≤ e ∧ r = mkRecord ev := by
  intro events
  induction events with
  | nil =>
    intro acc r hr
    exact Or.inl hr
  | cons ev rest ih =>
    intro acc r hr
    by_cases h1 : ev.created_at < s
    · rw [processEvents, if_pos h1] at hr
      exact Or.inl hr
    · by_cases h2 : ev.created_at ≤ e
      · rw [processEvents, if_neg h1, if_pos h2] at hr
        rcases ih (acc ++ [mkRecord ev]) r hr with hmem | ⟨ev2, hev2, hs2, he2, hr2⟩
        · rcases List.mem_append.mp hmem with hacc | hnew
          · exact Or.inl hacc
          · refine Or.inr ⟨ev, List.mem_cons_self ev rest, le_of_not_lt h1, h2, ?_⟩
            simpa using hnew
        · exact Or.inr ⟨ev2, List.mem_cons_of_mem ev hev2, hs2, he2, hr2⟩
      · rw [processEvents, if_neg h1, if_neg h2] at hr
        rcases ih acc r hr with hacc | ⟨ev2, hev2, hs2, he2, hr2⟩
        · exact Or.inl hacc
        · exact Or.inr ⟨ev2, List.mem_cons_of_mem ev hev2, hs2, he2, hr2⟩

/-- C1: The event loop stops as soon as an event's timestamp precedes the
window start, returning exactly the table built so far; every record of
the table built from a page comes from an event inside the inclusive
window `[start_date, end_date]` (with `end_date = now`, so no event after
now is included); and when a page triggers the early exit, the pagination
loop returns that table at once. -/
theorem processEvents_window_sound (s e : Int) :
    (∀ (ev : Event) (rest : List Event) (acc : List Record),
        ev.created_at < s →
        processEvents s e acc (ev :: rest) = PageOutcome.earlyReturn acc)
    ∧ (∀ (events : List Event) (r : Record),
        r ∈ (processEvents s e [] events).acc →
        ∃ ev ∈ events,
          s ≤ ev.created_at ∧ ev.created_at ≤ e ∧ r = mkRecord ev)
    ∧ (∀ (now remaining reset : Int) (events : List Event)
        (rest : List (Int × PageResponse)) (page : Nat)
        (acc acc2 : List Record) (acts : List Action),
        ¬(remaining = 0 ∧ reset - now > 0) → events ≠ [] →
        processEvents s e acc events = PageOutcome.earlyReturn acc2 →
        fetchLoop s e ((now, PageResponse.ok remaining reset events) :: rest)
            page acc acts =
          (Except.ok acc2, acts ++ [Action.request page], rest)) := by
  refine ⟨?_, ?_, ?_⟩
  · intro ev rest acc h1
    rw [processEvents, if_pos h1]
  · intro events r hr
    rcases processEvents_acc_mem s e events [] r hr with hacc | hev
    · cases hacc
    · exact hev
  · intro now remaining reset events rest page acc acc2 acts hc hne hp
    simp only [fetchLoop]
    rw [if_neg hc, if_neg hne, hp]

/-- Witness for C1: an event 5 seconds before the window start triggers
the early return with the empty table; a single in-window event at
timestamp 50 yields exactly its record; and a page whose first event
precedes the start makes the pagination loop return the table at once. -/
theorem processEvents_window_sound_witness :
    processEvents 0 100 []
        [{ created_at := -5, type := "PushEvent", repo := "u/r" }] =
      PageOutcome.earlyReturn []
    ∧ (∃ ev ∈ [({ created_at := 50, type := "PushEvent", repo := "u/r" } :
          Event)],
        (0 : Int) ≤ ev.created_at ∧ ev.created_at ≤ 100 ∧
          ({ date := 0, type := "PushEvent", repo := "u/r" } : Record) =
            mkRecord ev)
    ∧ fetchLoop 0 100
        [(50, PageResponse.ok 5 0
          [{ created_at := -5, type := "PushEvent", repo := "u/r" }])]
        1 [] [] =
      (Except.ok [], [Action.request 1], []) := by
  refine ⟨?_, ?_, ?_⟩
  · exact (processEvents_window_sound 0 100).1
      { created_at := -5, type := "PushEvent", repo := "u/r" } [] []
      (by decide)
  · exact (processEvents_window_sound 0 100).2.1
      [{ created_at := 50, type := "PushEvent", repo := "u/r" }]
      { date := 0, type := "PushEvent", repo := "u/r" } (by decide)
  · exact (processEvents_window_sound 0 100).2.2 50 5 0
      [{ created_at := -5, type := "PushEvent", repo := "u/r" }]
      [] 1 [] [] [] (by decide) (by decide) (by decide)

/-- C6: A transport failure or non-2xx response makes the pagination loop
return `networkError` at once, with no partial table; conversely, whenever
the loop returns a table, every response it consumed (the prefix of the
stream up to the unconsumed remainder) was a success. -/
theorem fetch_error_propagation (s e : Int) :
    (∀ (now : Int) (rest : List (Int × PageResponse)) (page : Nat)
        (acc : List Record) (acts : List Action),
        fetchLoop s e ((now, PageResponse.netError) :: rest) page acc acts =
          (Except.error FetchErr.networkError,
           acts ++ [Action.request page], rest))
    ∧ (∀ (responses : List (Int × PageResponse)) (page : Nat)
        (acc t : List Record) (acts acts2 : List Action)
        (rem : List (Int × PageResponse)),
        fetchLoop s e responses page acc acts = (Except.ok t, acts2, rem) →
        ∃ k, rem = responses.drop k ∧
          ∀ pr ∈ responses.take k, pr.2 ≠ PageResponse.netError) := by
  constructor
  · intro now rest page acc acts
    rfl
  · intro responses
    induction responses with
    | nil =>
      intro page acc t acts acts2 rem h
      simp only [fetchLoop, Prod.mk.injEq] at h
      exact ⟨0, h.2.2.symm, by simp⟩
    | cons hd tl ih =>
      obtain ⟨now, resp⟩ := hd
      intro page acc t acts acts2 rem h
      cases resp with
      | netError =>
        simp only [fetchLoop, Prod.mk.injEq] at h
        exact absurd h.1 (by simp)
      | ok remaining reset events =>
        simp only [fetchLoop] at h
        by_cases hc : remaining = 0 ∧ reset - now > 0
        · rw [if_pos hc] at h
          obtain ⟨k, hk1, hk2⟩ := ih _ _ _ _ _ _ h
          refine ⟨k + 1, by simpa using hk1, ?_⟩
          intro pr hpr
          rw [List.take_succ_cons] at hpr
          rcases List.mem_cons.mp hpr with hhd | htl
          · subst hhd; simp
          · exact hk2 pr htl
        · rw [if_neg hc] at h
          by_cases he : events = []
          · rw [if_pos he] at h
            simp only [Prod.mk.injEq] at h
            refine ⟨1, h.2.2.symm, ?_⟩
            intro pr hpr
            simp only [List.take_succ_cons, List.take_zero] at hpr
            rcases List.mem_cons.mp hpr with hhd | htl
            · subst hhd; simp
            · cases htl
          · rw [if_neg he] at h
            cases hp : processEvents s e acc events with
            | earlyReturn acc3 =>
              rw [hp] at h
              simp only [Prod.mk.injEq] at h
              refine ⟨1, h.2.2.symm, ?_⟩
              intro pr hpr
              simp only [List.take_succ_cons, List.take_zero] at hpr
              rcases List.mem_cons.mp hpr with hhd | htl
              · subst hhd; simp
              · cases htl
            | finished acc3 =>
              rw [hp] at h
              obtain ⟨k, hk1, hk2⟩ := ih _ _ _ _ _ _ h
              refine ⟨k + 1, by simpa using hk1, ?_⟩
              intro pr hpr
              rw [List.take_succ_cons] at hpr
              rcases List.mem_cons.mp hpr with hhd | htl
              · subst hhd; simp
              · exact hk2 pr htl

/-- Witness for C6: a run consuming one successful empty page returns the
empty table, and the consumed prefix contains no failed request. -/
theorem fetch_error_propagation_witness :
    ∃ k, ([] : List (Int × PageResponse)) =
        [((0 : Int), PageResponse.ok 5 0 [])].drop k
      ∧ ∀ pr ∈ [((0 : Int), PageResponse.ok 5 0 [])].take k,
          pr.2 ≠ PageResponse.netError :=
  (fetch_error_propagation 0 100).2 [(0, PageResponse.ok 5 0 [])]
    1 [] [] [] [Action.request 1] [] rfl

/-- C3: On an empty event table, `analyze_contributions` returns
`total_contributions = 0`, an empty type mapping, `active_repositories = 0`
and `daily_average = 0`; the guarded branch is taken, so the returned
average is the literal zero, not a quotient by the distinct-day count. -/
theorem analyze_empty_spec :
    GitInsight.analyze_contributions [] =
      { total_contributions := 0, contribution_types := [],
        active_repositories := 0, daily_average := 0 } := rfl

/-- C8: On an empty event table, `visualize_contributions` is a no-op apart
from the logged notice, regardless of `save_path`: it emits exactly the
warning, and in particular draws no chart and writes no image file. -/
theorem visualize_empty_noop (save_path : Option String) :
    GitInsight.visualize_contributions [] save_path =
        [GitInsight.VizEffect.logWarning "No data to visualize"]
      ∧ GitInsight.VizEffect.drawChart ∉
          GitInsight.visualize_contributions [] save_path
      ∧ ∀ p, GitInsight.VizEffect.saveFig p ∉
          GitInsight.visualize_contributions [] save_path := by
  refine ⟨rfl, ?_, ?_⟩
  · simp [GitInsight.visualize_contributions]
  · intro p
    simp [GitInsight.visualize_contributions]

/-- C5: For any zero or negative `days`, `fetch_contributions` raises
`ValueError` with an empty action trace: no HTTP request is issued and the
response stream is untouched. -/
theorem fetch_rejects_nonpositive_days (n nowTs : Int)
    (responses : List (Int × GitInsight.PageResponse)) (h : n ≤ 0) :
    GitInsight.fetch_contributions (GitInsight.PyVal.int n) nowTs responses =
      (Except.error GitInsight.FetchErr.valueError, [], responses) := by
  simp [GitInsight.fetch_contributions, GitInsight.PyVal.isinstance_int,
    GitInsight.PyVal.toInt, h]

/-- Witness for C5: `days = 0` is rejected before any request. -/
theorem fetch_rejects_nonpositive_days_witness :
    GitInsight.fetch_contributions (GitInsight.PyVal.int 0) 1000 [] =
      (Except.error GitInsight.FetchErr.valueError, [], []) :=
  fetch_rejects_nonpositive_days 0 1000 [] (by decide)

/-- C10: For any `days` that is not an instance of `int` (e.g. a float or a
string, even a positive one), `fetch_contributions` raises `ValueError`
with an empty action trace: no HTTP request is issued. -/
theorem fetch_rejects_non_int_days (v : GitInsight.PyVal) (nowTs : Int)
    (responses : List (Int × GitInsight.PageResponse))
    (h : v.isinstance_int = false) :
    GitInsight.fetch_contributions v nowTs responses =
      (Except.error GitInsight.FetchErr.valueError, [], responses) := by
  simp [GitInsight.fetch_contributions, h]

/-- Witness for C10: the positive float `5` is rejected before any
request. -/
theorem fetch_rejects_non_int_days_witness :
    GitInsight.fetch_contributions (GitInsight.PyVal.float 5) 1000 [] =
      (Except.error GitInsight.FetchErr.valueError, [], []) :=
  fetch_rejects_non_int_days (GitInsight.PyVal.float 5) 1000 [] (by decide)

/-- C7: For every event table and summary, `save_data` writes a CSV whose
body has exactly one row per record (plus the single header line), and a
summary file with exactly one line per summary key (the four keys of the
analysis dict). -/
theorem save_data_counts (df : List GitInsight.Record) (s : GitInsight.Summary) :
    (GitInsight.save_data df s).1 =
        "date,type,repo" :: df.map GitInsight.csvRow
      ∧ ((GitInsight.save_data df s).1.drop 1).length = df.length
      ∧ (GitInsight.save_data df s).1.length = df.length + 1
      ∧ (GitInsight.save_data df s).2.length =
          (GitInsight.summaryItems s).length
      ∧ (GitInsight.save_data df s).2.length = 4 := by
  refine ⟨rfl, ?_, ?_, ?_, ?_⟩ <;>
    simp [GitInsight.save_data, GitInsight.to_csv, GitInsight.summaryLines,
      GitInsight.summaryItems]

/-- Witness for C7: the persisted files for the 3-event scenario table have
3 data rows after the header and 4 summary lines. -/
theorem save_data_counts_witness :
    (GitInsight.save_data GitInsight.scenario3
        { total_contributions := 3,
          contribution_types := [("PushEvent", 2), ("WatchEvent", 1)],
          active_repositories := 1, daily_average := 3 }).1 =
        "date,type,repo" :: GitInsight.scenario3.map GitInsight.csvRow
      ∧ ((GitInsight.save_data GitInsight.scenario3
          { total_contributions := 3,
            contribution_types := [("PushEvent", 2), ("WatchEvent", 1)],
            active_repositories := 1, daily_average := 3 }).1.drop 1).length =
          GitInsight.scenario3.length
      ∧ (GitInsight.save_data GitInsight.scenario3
          { total_contributions := 3,
            contribution_types := [("PushEvent", 2), ("WatchEvent", 1)],
            active_repositories := 1, daily_average := 3 }).1.length =
          GitInsight.scenario3.length + 1
      ∧ (GitInsight.save_data GitInsight.scenario3
          { total_contributions := 3,
            contribution_types := [("PushEvent", 2), ("WatchEvent", 1)],
            active_repositories := 1, daily_average := 3 }).2.length =
          (GitInsight.summaryItems
            { total_contributions := 3,
              contribution_types := [("PushEvent", 2), ("WatchEvent", 1)],
              active_repositories := 1, daily_average := 3 }).length
      ∧ (GitInsight.save_data GitInsight.scenario3
          { total_contributions := 3,
            contribution_types := [("PushEvent", 2), ("WatchEvent", 1)],
            active_repositories := 1, daily_average := 3 }).2.length = 4 :=
  save_data_counts GitInsight.scenario3
    { total_contributions := 3,
      contribution_types := [("PushEvent", 2), ("WatchEvent", 1)],
      active_repositories := 1, daily_average := 3 }

/-- Witness for C8: with a save path supplied, the empty-table call still
only logs the notice. -/
theorem visualize_empty_noop_witness :
    GitInsight.visualize_contributions [] (some "data/contribution_graph.png") =
        [GitInsight.VizEffect.logWarning "No data to visualize"]
      ∧ GitInsight.VizEffect.drawChart ∉
          GitInsight.visualize_contributions []
            (some "data/contribution_graph.png")
      ∧ ∀ p, GitInsight.VizEffect.saveFig p ∉
          GitInsight.visualize_contributions []
            (some "data/contribution_graph.png") :=
  visualize_empty_noop (some "data/contribution_graph.png")

/-- C4: When a page response reports `X-RateLimit-Remaining = 0` with a
reset strictly in the future, the loop sleeps `wait_time + 1` seconds
(reset minus now, plus the one-second buffer) and re-requests the same
page: the recursion continues on the remaining stream with an unchanged
page number and table, so the stall alone never terminates the loop; the
sleep duration is at least the distance to the reset time. -/
theorem rateLimit_stall_retries_same_page (s e now reset : Int)
    (events : List GitInsight.Event)
    (rest : List (Int × GitInsight.PageResponse)) (page : Nat)
    (acc : List GitInsight.Record) (acts : List GitInsight.Action)
    (h : reset - now > 0) :
    GitInsight.fetchLoop s e
        ((now, GitInsight.PageResponse.ok 0 reset events) :: rest)
        page acc acts =
      GitInsight.fetchLoop s e rest page acc
        (acts ++ [GitInsight.Action.request page,
                  GitInsight.Action.sleep (reset - now + 1)])
      ∧ reset - now + 1 ≥ reset - now := by
  constructor
  · simp [GitInsight.fetchLoop, h]
  · omega

/-- Witness for C4: with the reset 2 seconds in the future the loop sleeps
3 seconds (≥ 2) and retries page 1. -/
theorem rateLimit_stall_retries_same_page_witness :
    GitInsight.fetchLoop 0 100
        ((10, GitInsight.PageResponse.ok 0 12 []) :: [])
        1 [] [] =
      GitInsight.fetchLoop 0 100 [] 1 []
        ([] ++ [GitInsight.Action.request 1, GitInsight.Action.sleep (12 - 10 + 1)])
      ∧ (12 : Int) - 10 + 1 ≥ 12 - 10 :=
  rateLimit_stall_retries_same_page 0 100 10 12 [] [] 1 [] [] (by decide)

/-- Summing a pointwise sum of two `Nat`-valued maps splits. -/
theorem sum_map_add_nat {α : Type} (f g : α → Nat) :
    ∀ l : List α, (l.map fun x => f x + g x).sum = (l.map f).sum + (l.map g).sum := by
  intro l
  induction l with
  | nil => simp
  | cons x l ih =>
    simp only [List.map_cons, List.sum_cons, ih]
    omega

/-- Over a duplicate-free list, the indicator of one element sums to its
membership bit. -/
theorem sum_map_indicator_of_nodup {α : Type} [DecidableEq α] (a : α) :
    ∀ l : List α, l.Nodup →
      (l.map fun t => if a = t then 1 else 0).sum = if a ∈ l then 1 else 0 := by
  intro l
  induction l with
  | nil => simp
  | cons x l ih =>
    intro hnd
    rcases List.nodup_cons.mp hnd with ⟨hx, hl⟩
    by_cases hxa : x = a
    · subst hxa
      simp [ih hl, hx]
    · have hax : ¬ a = x := fun hh => hxa hh.symm
      simp [hax, ih hl, List.mem_cons]

/-- The per-distinct-value counts of a list sum to its length. -/
theorem sum_map_count_dedup {α : Type} [DecidableEq α] :
    ∀ l : List α, (l.dedup.map fun t => l.count t).sum = l.length := by
  intro l
  induction l with
  | nil => simp
  | cons a l ih =>
    by_cases h : a ∈ l
    · rw [List.dedup_cons_of_mem h]
      simp only [List.count_cons, beq_iff_eq]
      rw [sum_map_add_nat (fun t => l.count t) (fun t => if a = t then 1 else 0),
        ih, sum_map_indicator_of_nodup a l.dedup (List.nodup_dedup l)]
      simp [List.mem_dedup, h]
    · rw [List.dedup_cons_of_not_mem h]
      simp only [List.map_cons, List.sum_cons, List.count_cons, beq_iff_eq]
      rw [sum_map_add_nat (fun t => l.count t) (fun t => if a = t then 1 else 0),
        ih, sum_map_indicator_of_nodup a l.dedup (List.nodup_dedup l)]
      have h0 : l.count a = 0 := List.count_eq_zero.mpr h
      simp [List.mem_dedup, h, h0]
      omega

/-- The count of a value in a projected column equals the number of records
matching on that column. -/
theorem count_type_eq_filter_length (df : List Record) (t : String) :
    (df.map Record.type).count t =
      (df.filter (fun r => r.type == t)).length := by
  rw [List.count_eq_countP, List.countP_map, List.countP_eq_length_filter]
  rfl

/-- The else-branch of `analyze_contributions` on a visibly non-empty
table. -/
theorem analyze_cons (d : Record) (ds : List Record) :
    analyze_contributions (d :: ds) =
      ⟨(d :: ds).length,
       value_counts ((d :: ds).map Record.type),
       nunique ((d :: ds).map Record.repo),
       ((d :: ds).length : ℚ) / (nunique ((d :: ds).map Record.date) : ℚ)⟩ := by
  simp [analyze_contributions]

/-- `analyze_contributions` evaluated on the concrete 3-event scenario. -/
theorem analyze_scenario3_eq :
    analyze_contributions scenario3 =
      { total_contributions := 3,
        contribution_types := [("PushEvent", 2), ("WatchEvent", 1)],
        active_repositories := 1, daily_average := 3 } := by
  rw [show scenario3 =
      ({ date := 19000, type := "PushEvent", repo := "user/repo" } : Record) ::
        [{ date := 19000, type := "PushEvent", repo := "user/repo" },
         { date := 19000, type := "WatchEvent", repo := "user/repo" }] from rfl,
    analyze_cons, Summary.mk.injEq]
  refine ⟨by decide, by decide, by decide, ?_⟩
  have hD : nunique
      ((({ date := 19000, type := "PushEvent", repo := "user/repo" } : Record) ::
        [{ date := 19000, type := "PushEvent", repo := "user/repo" },
         { date := 19000, type := "WatchEvent", repo := "user/repo" }]).map
        Record.date) = 1 := by decide
  rw [hD]
  norm_num

/-- C2: On a non-empty table, `analyze_contributions` returns the record
count as `total_contributions`; `contribution_types` contains exactly the
pairs (distinct type, number of records of that type); `active_repositories`
and the divisor of `daily_average` are the numbers of distinct repos and
dates; and on the 3-event one-day one-repo scenario it returns total 3,
PushEvent 2 / WatchEvent 1, one active repository and average 3. -/
theorem analyze_nonempty_spec (df : List Record) (h : df ≠ []) :
    (analyze_contributions df).total_contributions = df.length
    ∧ (∀ t, t ∈ df.map Record.type →
        (t, (df.filter (fun r => r.type == t)).length) ∈
          (analyze_contributions df).contribution_types)
    ∧ (∀ t n, (t, n) ∈ (analyze_contributions df).contribution_types →
        t ∈ df.map Record.type ∧ n = (df.filter (fun r => r.type == t)).length)
    ∧ (analyze_contributions df).active_repositories =
        (df.map Record.repo).toFinset.card
    ∧ (analyze_contributions df).daily_average =
        (df.length : ℚ) / ((df.map Record.date).toFinset.card : ℚ)
    ∧ analyze_contributions scenario3 =
        { total_contributions := 3,
          contribution_types := [("PushEvent", 2), ("WatchEvent", 1)],
          active_repositories := 1, daily_average := 3 } := by
  obtain ⟨d, ds, rfl⟩ := List.exists_cons_of_ne_nil h
  refine ⟨?_, ?_, ?_, ?_, ?_, ?_⟩
  · rw [analyze_cons]
  · intro t ht
    rw [analyze_cons]
    show (t, _) ∈ value_counts ((d :: ds).map Record.type)
    rw [← count_type_eq_filter_length]
    exact List.mem_map_of_mem _ (List.mem_dedup.mpr ht)
  · intro t n htn
    rw [analyze_cons] at htn
    obtain ⟨u, hu, huv⟩ := List.mem_map.mp htn
    obtain ⟨h1, h2⟩ := Prod.mk.injEq _ _ _ _ |>.mp huv
    subst h1
    subst h2
    exact ⟨List.mem_dedup.mp hu, count_type_eq_filter_length _ _⟩
  · rw [analyze_cons, List.card_toFinset]
    rfl
  · rw [analyze_cons, List.card_toFinset]
    rfl
  · exact analyze_scenario3_eq

/-- Witness for C2: the conclusion instantiated at the concrete 3-event
scenario table. -/
theorem analyze_nonempty_spec_witness :
    (analyze_contributions scenario3).total_contributions = scenario3.length
    ∧ (∀ t, t ∈ scenario3.map Record.type →
        (t, (scenario3.filter (fun r => r.type == t)).length) ∈
          (analyze_contributions scenario3).contribution_types)
    ∧ (∀ t n, (t, n) ∈ (analyze_contributions scenario3).contribution_types →
        t ∈ scenario3.map Record.type ∧
          n = (scenario3.filter (fun r => r.type == t)).length)
    ∧ (analyze_contributions scenario3).active_repositories =
        (scenario3.map Record.repo).toFinset.card
    ∧ (analyze_contributions scenario3).daily_average =
        (scenario3.length : ℚ) / ((scenario3.map Record.date).toFinset.card : ℚ)
    ∧ analyze_contributions scenario3 =
        { total_contributions := 3,
          contribution_types := [("PushEvent", 2), ("WatchEvent", 1)],
          active_repositories := 1, daily_average := 3 } :=
  analyze_nonempty_spec scenario3 (by decide)

/-- C9: On a non-empty table the counts in `contribution_types` sum to
`total_contributions`, at least one repository is active, and the daily
average is strictly positive. -/
theorem analyze_nonempty_invariants (df : List Record) (h : df ≠ []) :
    ((analyze_contributions df).contribution_types.map Prod.snd).sum =
        (analyze_contributions df).total_contributions
    ∧ 1 ≤ (analyze_contributions df).active_repositories
    ∧ 0 < (analyze_contributions df).daily_average := by
  obtain ⟨d, ds, rfl⟩ := List.exists_cons_of_ne_nil h
  refine ⟨?_, ?_, ?_⟩
  · rw [analyze_cons]
    show ((value_counts ((d :: ds).map Record.type)).map Prod.snd).sum =
      (d :: ds).length
    rw [value_counts, List.map_map]
    show ((((d :: ds).map Record.type).dedup).map
      fun t => ((d :: ds).map Record.type).count t).sum = (d :: ds).length
    rw [sum_map_count_dedup, List.length_map]
  · rw [analyze_cons]
    show 1 ≤ nunique ((d :: ds).map Record.repo)
    refine List.length_pos.mpr ?_
    rw [Ne, List.dedup_eq_nil]
    simp
  · rw [analyze_cons]
    have hN : 0 < ((d :: ds).length : ℚ) := by
      have hp : 0 < (d :: ds).length := by simp
      exact_mod_cast hp
    have hD : 0 < (nunique ((d :: ds).map Record.date) : ℚ) := by
      have hp : 0 < nunique ((d :: ds).map Record.date) := by
        refine List.length_pos.mpr ?_
        rw [Ne, List.dedup_eq_nil]
        simp
      exact_mod_cast hp
    exact div_pos hN hD

/-- Witness for C9: the invariants instantiated at the concrete 3-event
scenario table. -/
theorem analyze_nonempty_invariants_witness :
    ((analyze_contributions scenario3).contribution_types.map Prod.snd).sum =
        (analyze_contributions scenario3).total_contributions
    ∧ 1 ≤ (analyze_contributions scenario3).active_repositories
    ∧ 0 < (analyze_contributions scenario3).daily_average :=
  analyze_nonempty_invariants scenario3 (by decide)

end GitInsight
